import Mathlib

/-!
Verification of `omero_scripts_processing.py` against its natural-language
specification.  The Python source is shallowly embedded: pure fragments
become Lean functions, the subprocess-supervision loop becomes a fuel-indexed
recursion over discrete time, exceptions become `Except`, and host (OMERO)
capabilities are abstracted as parameters.
-/

namespace OSP

/-! ## Exceptions of the module (lines 34-57 of the source) -/

/-- The exception taxonomy raised by processing blocks.  `bin_bad_exit`
carries the constructor arguments used at line 273 of the source: the
format string, the command argument vector, and the exit code. -/
inductive PyExc where
  | invalid_parameter (msg : String)
  | invalid_image (msg : String)
  | timeout_reached (msg : String)
  | bin_bad_exit (fmt : String) (args : List String) (code : Int)
  | generic (msg : String)
deriving Repr, DecidableEq

/-! ## Process supervisor: `bin_block.process` (source lines 237-276)

Discrete-time model.  A supervised subprocess is summarised by the absolute
time at which `p.poll()` begins returning an exit status (`none` when the
process never exits) and by that status.  `time.time()` is the current
discrete time; `time.sleep(timeout_grain)` advances it by `timeout_grain`. -/

structure SubProc where
  exit_time : Option Nat
  returncode : Int
deriving Repr, DecidableEq

/-- The `finished()` check of source lines 266-267: `p.poll() is not None`. -/
def sp_finished (p : SubProc) (t : Nat) : Bool :=
  match p.exit_time with
  | some te => decide (te ≤ t)
  | none => false

/-- Python truthiness of the `timeout` argument (`if timeout:`, line 257). -/
def py_truthy : Option Nat → Bool
  | none => false
  | some n => n != 0

/-- Source line 258 rebinds the local name `timeout` to the lambda itself:
`timeout = lambda : time.time() > timeout`.  When the lambda later runs, the
name `timeout` resolves to the lambda, so the comparison is a Python 2
float-versus-function comparison.  CPython 2 orders every number below every
non-numeric object, hence `time.time() > timeout` is always `False`. -/
def py2_float_gt_lambda : Bool := false

/-- The timeout predicate built at source lines 257-260, as the code
actually behaves: the truthy branch yields the self-referential lambda
(constantly false, see `py2_float_gt_lambda`), the falsy branch yields
`lambda : False`. -/
def mk_timeout_pred (timeout : Option Nat) : Nat → Bool :=
  if py_truthy timeout then fun _ => py2_float_gt_lambda else fun _ => false

/-- Modelled from the spec: the intended deadline predicate of
`bin_block.process` that its docstring (lines 247-253) and the spec's §4.1
describe — compare the current clock against the `timeout` argument taken as
an absolute deadline, with a falsy argument disabling the deadline. -/
def intended_timeout_pred (timeout : Option Nat) : Nat → Bool :=
  if py_truthy timeout then
    fun now => decide ((timeout.getD 0) < now)
  else fun _ => false

/-- The polling loop of source lines 266-270:
`while not finished() and not timeout(): self.conn.keepAlive();
time.sleep(timeout_grain)`.  Arguments: remaining fuel, current time, and
keepalive count so far.  Returns the time at which the loop condition
failed together with the number of `keepAlive()` calls emitted, or `none`
when the fuel ran out with the loop still spinning.  The identical loop
appears again in `matlab_block.run_matlab` (source lines 493-497). -/
def poll_loop (fin tmo : Nat → Bool) (grain : Nat) : Nat → Nat → Nat → Option (Nat × Nat)
  | 0, t, k => if fin t || tmo t then some (t, k) else none
  | fuel+1, t, k =>
    if fin t || tmo t then some (t, k)
    else poll_loop fin tmo grain fuel (t + grain) (k + 1)

/-- Outcome of `bin_block.process`: fall through (success), raise
`bin_bad_exit` (line 273), or terminate the process and raise
`timeout_reached` (lines 275-276). -/
inductive BinOutcome where
  | ok
  | bin_bad_exit (args : List String) (code : Int)
  | timeout_reached
deriving Repr, DecidableEq

/-- The supervisor `bin_block.process` (source lines 237-276) for a process `p` started at
time `t0`: build the timeout predicate (lines 257-260), run the polling loop
(lines 266-270), then classify (lines 272-276): a non-zero exit status
raises `bin_bad_exit`, else a passed deadline terminates the process and
raises `timeout_reached`, else the call returns normally.  The second
component counts the `keepAlive()` liveness calls.  `none` means the loop
was still spinning when the fuel ran out. -/
def bin_process (p : SubProc) (args : List String) (timeout : Option Nat)
    (timeout_grain t0 fuel : Nat) : Option (BinOutcome × Nat) :=
  let tmo := mk_timeout_pred timeout
  match poll_loop (sp_finished p) tmo timeout_grain fuel t0 0 with
  | none => none
  | some (t, k) =>
    if sp_finished p t && (p.returncode != 0) then
      some (.bin_bad_exit args p.returncode, k)
    else if tmo t then
      some (.timeout_reached, k)
    else
      some (.ok, k)

/-- Modelled from the spec: `bin_block.process` as its docstring and §4.1 of
the spec intend it, i.e. with the deadline predicate actually comparing the
clock to the `timeout` argument (`intended_timeout_pred`) instead of the
rebound lambda. -/
def bin_process_intended (p : SubProc) (args : List String) (timeout : Option Nat)
    (timeout_grain t0 fuel : Nat) : Option (BinOutcome × Nat) :=
  let tmo := intended_timeout_pred timeout
  match poll_loop (sp_finished p) tmo timeout_grain fuel t0 0 with
  | none => none
  | some (t, k) =>
    if sp_finished p t && (p.returncode != 0) then
      some (.bin_bad_exit args p.returncode, k)
    else if tmo t then
      some (.timeout_reached, k)
    else
      some (.ok, k)

/-! ### Supporting lemmas on the polling loop -/

lemma mk_timeout_pred_eq_false (a : Option Nat) :
    mk_timeout_pred a = fun _ => false := by
  unfold mk_timeout_pred py2_float_gt_lambda
  cases py_truthy a <;> simp

lemma poll_loop_k_le (fin tmo : Nat → Bool) (grain : Nat) :
    ∀ fuel t k t2 k2, poll_loop fin tmo grain fuel t k = some (t2, k2) → k ≤ k2 := by
  intro fuel
  induction fuel with
  | zero =>
    intro t k t2 k2 h
    unfold poll_loop at h
    split at h
    · injection h with h'
      injection h' with _ hk
      omega
    · exact absurd h (by simp)
  | succ n ih =>
    intro t k t2 k2 h
    unfold poll_loop at h
    split at h
    · injection h with h'
      injection h' with _ hk
      omega
    · exact Nat.le_of_succ_le (ih (t + grain) (k + 1) t2 k2 h)

lemma poll_loop_terminates (fin : Nat → Bool) (tmo : Nat → Bool) (grain te : Nat)
    (hfin : ∀ t, te ≤ t → fin t = true) :
    ∀ fuel t k, te ≤ t + fuel * grain →
      ∃ t2 k2, poll_loop fin tmo grain fuel t k = some (t2, k2) := by
  intro fuel
  induction fuel with
  | zero =>
    intro t k h
    simp only [Nat.zero_mul, Nat.add_zero] at h
    exact ⟨t, k, by unfold poll_loop; simp [hfin t h]⟩
  | succ n ih =>
    intro t k h
    unfold poll_loop
    split
    · exact ⟨t, k, rfl⟩
    · exact ih (t + grain) (k + 1) (by
        have : t + (n + 1) * grain = (t + grain) + n * grain := by ring
        omega)

lemma poll_loop_exit_fin (fin : Nat → Bool) (grain : Nat) :
    ∀ fuel t k t2 k2,
      poll_loop fin (fun _ => false) grain fuel t k = some (t2, k2) → fin t2 = true := by
  intro fuel
  induction fuel with
  | zero =>
    intro t k t2 k2 h
    unfold poll_loop at h
    split at h
    · rename_i hc
      injection h with h'
      injection h' with ht _
      subst ht
      simpa using hc
    · exact absurd h (by simp)
  | succ n ih =>
    intro t k t2 k2 h
    unfold poll_loop at h
    split at h
    · rename_i hc
      injection h with h'
      injection h' with ht _
      subst ht
      simpa using hc
    · exact ih (t + grain) (k + 1) t2 k2 h

lemma poll_loop_never_exits (grain : Nat) :
    ∀ fuel t k,
      poll_loop (fun _ => false) (fun _ => false) grain fuel t k = none := by
  intro fuel
  induction fuel with
  | zero => intro t k; unfold poll_loop; simp
  | succ n ih => intro t k; unfold poll_loop; simpa using ih (t + grain) (k + 1)

lemma poll_loop_keepalive_bound (te grain : Nat) :
    ∀ fuel t k t2 k2,
      poll_loop (fun u => decide (te ≤ u)) (fun _ => false) grain fuel t k = some (t2, k2) →
      ∀ j, t + j * grain < te → k + j < k2 := by
  intro fuel
  induction fuel with
  | zero =>
    intro t k t2 k2 h j hj
    unfold poll_loop at h
    split at h
    · rename_i hc
      simp at hc
      have hx := Nat.le_add_right t (j * grain)
      omega
    · exact absurd h (by simp)
  | succ n ih =>
    intro t k t2 k2 h j hj
    unfold poll_loop at h
    split at h
    · rename_i hc
      simp at hc
      have hx := Nat.le_add_right t (j * grain)
      omega
    · cases j with
      | zero =>
        have := poll_loop_k_le (fun u => decide (te ≤ u)) (fun _ => false)
          grain n (t + grain) (k + 1) t2 k2 h
        omega
      | succ j' =>
        have := ih (t + grain) (k + 1) t2 k2 h j' (by
          have : t + grain + j' * grain = t + (j' + 1) * grain := by ring
          omega)
        omega

/-! ## Processing blocks: `block` (source lines 59-189)

A block activation's mutable state.  `_tmpfiles` is the list of temporary
files tracked by `get_tmp_file`; `cleanups` counts how many times
`clean_tmp_files` has run (instrumentation for the exactly-once property);
`parent`/`child` are the attributes set by `get_parent`/`send_child`. -/

/-- Items are opaque image handles; we use their ids. -/
abbrev Item := Nat

structure BlockSt where
  tmpfiles : List String
  cleanups : Nat
  parent : Option Item
  child : Option Item
deriving Repr, DecidableEq

def init_block_st : BlockSt :=
  { tmpfiles := [], cleanups := 0, parent := none, child := none }

/-- The finaliser `block.clean_tmp_files` (source lines 104-106): `self._tmpfiles = []`,
which drops the last references to the `NamedTemporaryFile` objects and so
releases them.  `cleanups` is bumped so that exactly-once can be stated. -/
def clean_tmp_files (s : BlockSt) : BlockSt :=
  { s with tmpfiles := [], cleanups := s.cleanups + 1 }

/-- A lifecycle stage either returns the updated activation state or raises,
leaving the state as it was at the raise point. -/
abbrev StageRes := Except (PyExc × BlockSt) BlockSt

/-- The five lifecycle stages of a block, kept abstract: the base class
leaves `process`/`send_child` unimplemented and subclasses override all of
them, so the embedding of `block.launch` is parametric in their behavior. -/
structure BlockImpl where
  get_parent : Option Item → BlockSt → StageRes
  parse_options : BlockSt → StageRes
  process : BlockSt → StageRes
  send_child : BlockSt → StageRes
  annotate : BlockSt → StageRes

/-- The `try` body of `block.launch` (source lines 110-115): the five
stages in sequence, short-circuiting on the first raise. -/
def block_body (b : BlockImpl) (parent : Option Item) (s : BlockSt) : StageRes := do
  let s ← b.get_parent parent s
  let s ← b.parse_options s
  let s ← b.process s
  let s ← b.send_child s
  b.annotate s

/-- The driver `block.launch` (source lines 108-117): run the stages under
`try/finally` with `clean_tmp_files` as the finaliser.  The Python method
has no `return` statement, so a normal completion returns the value `None`;
we model the returned value as `none : Option Item`. -/
def block_launch (b : BlockImpl) (parent : Option Item) (s : BlockSt) :
    Except PyExc (Option Item) × BlockSt :=
  match block_body b parent s with
  | .ok s1 => (.ok none, clean_tmp_files s1)
  | .error (e, s1) => (.error e, clean_tmp_files s1)

/-! ## Chain traversal: `chain.launch` (source lines 603-659) -/

/-- The inner loop of `chain.launch` over one item (source lines 640-644):
`parent = root`, then for each block `child = block.launch(parent);
parent = child`.  The value bound to `child` is whatever `block.launch`
returned. -/
def chain_traverse : List (BlockImpl × BlockSt) → Option Item → Except PyExc (Option Item)
  | [], parent => .ok parent
  | (b, s) :: rest, parent =>
    match block_launch b parent s with
    | (.ok child, _) => chain_traverse rest child
    | (.error e, _) => .error e

/-- Instrumented variant of the same loop recording, in order, the `parent`
value each `block.launch` call receives. -/
def chain_traverse_inputs : List (BlockImpl × BlockSt) → Option Item → List (Option Item)
  | [], _ => []
  | (b, s) :: rest, parent =>
    parent :: (match block_launch b parent s with
      | (.ok child, _) => chain_traverse_inputs rest child
      | (.error _, _) => [])

/-- Whether an item's traversal raises (caught by the `except` at source
lines 645-649). -/
def item_fails (blocks : List (BlockImpl × BlockSt)) (root : Item) : Bool :=
  match chain_traverse blocks (some root) with
  | .ok _ => false
  | .error _ => true

/-- The item loop of `chain.launch` (source lines 634-649) started from an
arbitrary accumulator `(nimgs, nbads)`: for each root, `nimgs += 1`, run
the blocks under `try`, and on an exception `nbads += 1`. -/
def chain_item_fold (blocks : List (BlockImpl × BlockSt)) (acc : Nat × Nat)
    (roots : List Item) : Nat × Nat :=
  roots.foldl
    (fun acc root =>
      match chain_traverse blocks (some root) with
      | .ok _ => (acc.1 + 1, acc.2)
      | .error _ => (acc.1 + 1, acc.2 + 1))
    acc

/-- The item loop of `chain.launch` as executed: counters start at
`nbads = 0`, `nimgs = 0` (source lines 634-635). -/
def chain_item_loop (blocks : List (BlockImpl × BlockSt)) (roots : List Item) : Nat × Nat :=
  chain_item_fold blocks (0, 0) roots

/-- The summary message selection of `chain.launch` (source lines 651-658),
branch order as in the code. -/
def summary_msg (nimgs nbads : Nat) : String :=
  if nimgs = 0 then "No images selected"
  else if nbads = nimgs then "Failed denoising all images"
  else if nbads ≠ 0 then
    "Failed denoising " ++ toString nbads ++ " of " ++ toString nimgs ++ " images"
  else "Finished denoising all images"

/-- The message `chain.launch` hands to `setOutput` (source line 659). -/
def chain_launch_msg (blocks : List (BlockImpl × BlockSt)) (roots : List Item) : String :=
  summary_msg (chain_item_loop blocks roots).1 (chain_item_loop blocks roots).2

lemma chain_item_fold_eq (blocks : List (BlockImpl × BlockSt)) :
    ∀ (roots : List Item) (a b : Nat),
      chain_item_fold blocks (a, b) roots =
        (a + roots.length, b + roots.countP (item_fails blocks)) := by
  intro roots
  induction roots with
  | nil => intro a b; simp [chain_item_fold]
  | cons r rs ih =>
    intro a b
    unfold chain_item_fold
    simp only [List.foldl_cons]
    cases hr : chain_traverse blocks (some r) with
    | ok v =>
      have hf : item_fails blocks r = false := by simp [item_fails, hr]
      have := ih (a + 1) b
      unfold chain_item_fold at this
      simp only [hr]
      rw [this]
      simp [List.countP_cons, hf]
      omega
    | error e =>
      have hf : item_fails blocks r = true := by simp [item_fails, hr]
      have := ih (a + 1) (b + 1)
      unfold chain_item_fold at this
      simp only [hr]
      rw [this]
      simp [List.countP_cons, hf]
      omega

lemma chain_item_loop_eq (blocks : List (BlockImpl × BlockSt)) (roots : List Item) :
    chain_item_loop blocks roots =
      (roots.length, roots.countP (item_fails blocks)) := by
  unfold chain_item_loop
  rw [chain_item_fold_eq]
  simp

/-! ## Item resolution: `chain.get_roots` (source lines 581-601)

The host capability `conn.getObjects(data_type, ids)` is abstracted: for
`"Image"` it returns the image wrappers addressed by `ids` (in order); for
`"Dataset"` it returns the dataset wrappers, whose `listChildren()` we model
through `OmeroDB.datasetChildren`. -/

structure OmeroDB where
  datasetChildren : Nat → List Item

/-- The resolver `chain.get_roots`: `if data_type == "Image": imgs = objs` else the
flattening comprehension `[img for ds in objs for img in ds.listChildren()]`. -/
def get_roots (db : OmeroDB) (data_type : String) (ids : List Nat) : List Item :=
  if data_type = "Image" then ids
  else (ids.map db.datasetChildren).flatten

/-! ## Chain construction: `chain.__init__` (source lines 524-579) -/

inductive ArgKind where
  | stringArg
  | listArg
  | boolArg
deriving Repr, DecidableEq

/-- One `omero.scripts` parameter declaration: kind, name, display-order
`grouping` key, and the optional flag. -/
structure ScriptArg where
  kind : ArgKind
  name : String
  grouping : String
  optional : Bool
deriving Repr, DecidableEq

/-- The `Data_Type` selector declared at source lines 533-540. -/
def data_type_arg : ScriptArg :=
  { kind := .stringArg, name := "Data_Type", grouping := "0.1", optional := false }

/-- The `IDs` list declared at source lines 541-546. -/
def ids_arg : ScriptArg :=
  { kind := .listArg, name := "IDs", grouping := "0.2", optional := false }

/-- A block's schema-relevant configuration: title, doc, declared args. -/
structure BlockSpec where
  title : String
  doc : String
  args : List ScriptArg
deriving Repr, DecidableEq

inductive ChainErr where
  | no_blocks
  | not_implemented
deriving Repr, DecidableEq

structure ChainSpec where
  title : String
  doc : String
  args : List ScriptArg
deriving Repr, DecidableEq

/-- Python's `"%0Wd" % n`: the decimal of `n` left-padded with zeros to
width `W` (source line 560: `bg = "%0" + str(len(str(nBlocks))) + "d"`). -/
def zero_pad (width n : Nat) : String :=
  let s := toString n
  String.mk (List.replicate (width - s.length) '0') ++ s

/-- The per-block schema merge loop of source lines 560-579: for block `n`
(zero-based), `subgroup = bg % (n+1)`; append a Bool enable flag named by
the block's title with grouping `subgroup`, then each block arg with its
grouping re-tagged to `subgroup + "." + grouping`. -/
def merged_block_args (blocks : List BlockSpec) : List ScriptArg :=
  let width := (toString blocks.length).length
  (blocks.enum.map (fun nb =>
    let subgroup := zero_pad width (nb.1 + 1)
    { kind := ArgKind.boolArg, name := nb.2.title, grouping := subgroup,
      optional := true } ::
      nb.2.args.map (fun a => { a with grouping := subgroup ++ "." ++ a.grouping }))).flatten

/-- The constructor `chain.__init__` (source lines 524-579): the general selection args
`Data_Type` and `IDs` come first; an empty block list raises
`Exception("no processing blocks")`; two or more blocks raise
`NotImplementedError` (line 557) before any block args are merged; exactly
one block yields the chain with that block's title/doc and the merged
argument schema. -/
def chain_init (blocks : List BlockSpec) : Except ChainErr ChainSpec :=
  match blocks with
  | [] => .error .no_blocks
  | [b] =>
    .ok { title := b.title, doc := b.doc,
          args := [data_type_arg, ids_arg] ++ merged_block_args [b] }
  | _ => .error .not_implemented

/-! ## The protective envelope: `matlab_block.protect_exit` (source lines 425-454) -/

/-- The wrapper `matlab_block.protect_exit`: the Python template
`"omero_scripts_processing_status = 0;\ntry\n\n%s\n\ncatch ...exit (...);\n" % (code)`
(source lines 441-453), i.e. a literal prefix, the caller's code, and a
literal suffix. -/
def protect_exit (code : String) : String :=
  "omero_scripts_processing_status = 0;\ntry\n\n" ++ code ++
    "\n\ncatch omero_scripts_processing_err\n  disp ([\x27error: \x27 omero_scripts_processing_err.message()]);\n  disp (omero_scripts_processing_err.stack ());\n  omero_scripts_processing_status = 1;\nend\nexit (omero_scripts_processing_status);\n"

/-- The sentinel status variable of the envelope. -/
def statusVar : String := "omero_scripts_processing_status"

/-- The catch variable of the envelope. -/
def errVar : String := "omero_scripts_processing_err"

/-- A fragment of the Matlab-like language the envelope is written in.
`userCode` is the caller-supplied code, opaque to the envelope. -/
inductive MStmt where
  | assign (v : String) (n : Nat)
  | userCode (src : String)
  | seq (a b : MStmt)
  | tryCatch (body : MStmt) (ev : String) (handler : MStmt)
  | dispErrMsg (ev : String)
  | dispErrStack (ev : String)
  | exitWith (v : String)

/-- Pretty-print a statement at indentation `ind`, following Matlab's
concrete syntax as it appears in the envelope template. -/
def renderM (ind : String) : MStmt → String
  | .assign v n => ind ++ v ++ " = " ++ toString n ++ ";\n"
  | .userCode src => src ++ "\n"
  | .seq a b => renderM ind a ++ renderM ind b
  | .tryCatch body ev handler =>
    ind ++ "try\n" ++ "\n" ++ renderM "" body ++ "\n" ++ ind ++ "catch " ++ ev ++ "\n" ++
      renderM (ind ++ "  ") handler ++ ind ++ "end\n"
  | .dispErrMsg ev => ind ++ "disp ([\x27error: \x27 " ++ ev ++ ".message()]);\n"
  | .dispErrStack ev => ind ++ "disp (" ++ ev ++ ".stack ());\n"
  | .exitWith v => ind ++ "exit (" ++ v ++ ");\n"

/-- The envelope as an `MStmt`: set the sentinel to 0; run the code in
try/catch where the handler prints the error message and stack and sets the
sentinel to 1; unconditionally `exit(sentinel)`. -/
def envelopeStmt (code : String) : MStmt :=
  .seq (.assign statusVar 0)
    (.seq
      (.tryCatch (.userCode code) errVar
        (.seq (.dispErrMsg errVar)
          (.seq (.dispErrStack errVar) (.assign statusVar 1))))
      (.exitWith statusVar))

/-- Behavior of the caller-supplied code when the interpreter reaches it:
it either completes, or raises an internal Matlab error with a message. -/
inductive COutcome where
  | ok
  | raises (msg : String)

/-- Modelled from the spec: the interpreter state of a Matlab session (the
interpreter itself is an external collaborator, not part of src/).  `vars`
are workspace variables, `errMsg` the message of the error object bound by
the innermost catch, `out` the lines printed so far. -/
structure MEnv where
  vars : String → Nat
  errMsg : String
  out : List String

/-- Result of running a statement at the prompt: fall through to the next
prompt (`normal`), an uncaught error returning to the prompt (`errored`),
or a call of `exit` terminating the interpreter process with an exit code
(`exited`). -/
inductive MRes where
  | normal (env : MEnv)
  | errored (msg : String) (env : MEnv)
  | exited (code : Nat) (env : MEnv)

/-- Modelled from the spec: execution of the Matlab-like fragment.
Assignments update the workspace; the user code behaves as `beh`; `seq`
propagates non-normal results; `try/catch` runs the handler on an error of
the body, binding the error object; `disp` appends a printed line; `exit v`
terminates the interpreter with the value of `v` as the process exit
status. -/
def matlabExec (beh : COutcome) : MStmt → MEnv → MRes
  | .assign v n, env =>
    .normal { env with vars := fun x => if x = v then n else env.vars x }
  | .userCode _, env =>
    match beh with
    | .ok => .normal env
    | .raises m => .errored m env
  | .seq a b, env =>
    match matlabExec beh a env with
    | .normal env2 => matlabExec beh b env2
    | r => r
  | .tryCatch body _ handler, env =>
    match matlabExec beh body env with
    | .errored m env2 => matlabExec beh handler { env2 with errMsg := m }
    | r => r
  | .dispErrMsg _, env =>
    .normal { env with out := env.out ++ ["error: " ++ env.errMsg] }
  | .dispErrStack _, env =>
    .normal { env with out := env.out ++ ["stack: " ++ env.errMsg] }
  | .exitWith v, env => .exited (env.vars v) env

/-! ## Claim theorems -/

lemma summary_msg_cases (M N : Nat) :
    summary_msg M N =
      (if M = 0 then "No images selected"
       else if N = 0 then "Finished denoising all images"
       else if N = M then "Failed denoising all images"
       else "Failed denoising " ++ toString N ++ " of " ++ toString M ++ " images") := by
  unfold summary_msg
  split_ifs <;> first | rfl | omega

/-- C1: over any chain run (any block behaviors, any resolved item list)
the failure count reported by the item loop of `chain.launch` never exceeds
the item count, and the emitted summary message is exactly the four-form
function of the counts: zero items yields "No images selected"; zero
failures with at least one item yields the all-succeeded message; failures
equal to items yields the all-failed message; otherwise "Failed denoising
N of M images" with N the failure count and M the item count. -/
theorem chain_summary_four_forms (blocks : List (BlockImpl × BlockSt)) (roots : List Item) :
    (chain_item_loop blocks roots).2 ≤ (chain_item_loop blocks roots).1 ∧
    chain_launch_msg blocks roots =
      (if (chain_item_loop blocks roots).1 = 0 then "No images selected"
       else if (chain_item_loop blocks roots).2 = 0 then "Finished denoising all images"
       else if (chain_item_loop blocks roots).2 = (chain_item_loop blocks roots).1 then
         "Failed denoising all images"
       else "Failed denoising " ++ toString (chain_item_loop blocks roots).2 ++ " of " ++
         toString (chain_item_loop blocks roots).1 ++ " images") := by
  constructor
  · rw [chain_item_loop_eq]
    exact List.countP_le_length _
  · rw [chain_launch_msg, summary_msg_cases]

/-- C2: every per-item failure is caught at the item-traversal boundary of
`chain.launch`: the item loop always processes every resolved item
(`nimgs` equals the item-list length whatever fails), the failure counter
equals the number of items whose traversal raises (exactly one increment
per failing item, failures never abort later items), and a summary message
is always produced from the final counts, even when every item fails. -/
theorem chain_per_item_isolation (blocks : List (BlockImpl × BlockSt)) (roots : List Item) :
    (chain_item_loop blocks roots).1 = roots.length ∧
    (chain_item_loop blocks roots).2 = roots.countP (item_fails blocks) ∧
    chain_launch_msg blocks roots =
      summary_msg roots.length (roots.countP (item_fails blocks)) := by
  have h := chain_item_loop_eq blocks roots
  refine ⟨by rw [h], by rw [h], ?_⟩
  rw [chain_launch_msg, h]

/-- C6: `block.launch` runs `clean_tmp_files` exactly once, after the
lifecycle stages, on every exit path: the final activation state is the
post-stage state passed through `clean_tmp_files` exactly once (whatever
state the stages produced, success or raise), the tracked temporary-file
list is empty when `launch` returns or propagates, and a stage's failure is
propagated unchanged. -/
theorem launch_cleanup_exactly_once (b : BlockImpl) (parent : Option Item) (s : BlockSt) :
    (block_launch b parent s).2.tmpfiles = [] ∧
    (block_launch b parent s).2 =
      clean_tmp_files (match block_body b parent s with
        | .ok s1 => s1
        | .error (_, s1) => s1) ∧
    (block_launch b parent s).2.cleanups =
      (match block_body b parent s with
        | .ok s1 => s1.cleanups
        | .error (_, s1) => s1.cleanups) + 1 ∧
    (block_launch b parent s).1 =
      (match block_body b parent s with
        | .ok _ => Except.ok none
        | .error (e, _) => Except.error e) := by
  unfold block_launch
  cases hb : block_body b parent s with
  | ok s1 => exact ⟨rfl, rfl, rfl, rfl⟩
  | error es => exact ⟨rfl, rfl, rfl, rfl⟩

/-- A concrete block whose stages succeed on a real parent image, storing
image 42 as the processed child; on a `None` parent its `get_parent` raises
the way `None.listParents()` does. -/
def demo_block : BlockImpl :=
  { get_parent := fun p s =>
      match p with
      | some i => .ok { s with parent := some i }
      | none => .error (.generic "NoneType object has no attribute listParents", s)
    parse_options := fun s => .ok s
    process := fun s => .ok s
    send_child := fun s => .ok { s with child := some 42 }
    annotate := fun s => .ok s }

/-- C9 (code bug): a successful `block.launch` returns `None` (the method
has no `return` statement) even though the activation computed its child
item (42), so the `parent = child` threading of `chain.launch` hands `None`
— not the processed output item — to the next block in the sequence. -/
theorem launch_returns_none_not_child :
    (block_launch demo_block (some 7) init_block_st).1 = Except.ok none ∧
    (block_launch demo_block (some 7) init_block_st).2.child = some 42 ∧
    chain_traverse_inputs [(demo_block, init_block_st), (demo_block, init_block_st)]
      (some 7) = [some 7, none] := ⟨rfl, rfl, rfl⟩

/-- C7: `chain.get_roots` with data type "Image" returns exactly the
directly addressed items unchanged; with data type "Dataset" it returns the
flattening of every named dataset's member items, in dataset order and
member order ([i] resolves to dataset i's children and resolution
distributes over concatenation of the id list), and the multiplicity of any
item in the result is the sum of its multiplicities over the datasets — no
deduplication of items appearing in several datasets. -/
theorem get_roots_resolution (db : OmeroDB) (ids ids2 : List Nat) (i : Nat) (x : Item) :
    get_roots db "Image" ids = ids ∧
    get_roots db "Dataset" [i] = db.datasetChildren i ∧
    get_roots db "Dataset" (ids ++ ids2) =
      get_roots db "Dataset" ids ++ get_roots db "Dataset" ids2 ∧
    (get_roots db "Dataset" ids).count x =
      (ids.map (fun d => (db.datasetChildren d).count x)).sum := by
  refine ⟨rfl, ?_, ?_, ?_⟩
  · simp [get_roots]
  · simp [get_roots]
  · simp [get_roots, List.count_flatten, List.map_map]
    rfl

/-- Concrete two-block input for the schema-merge claim: B1 declares
parameters p1, p2 and B2 declares q1. -/
def b1_demo : BlockSpec :=
  { title := "B1", doc := "", args :=
      [ { kind := .stringArg, name := "p1", grouping := "1", optional := true },
        { kind := .stringArg, name := "p2", grouping := "2", optional := true } ] }

def b2_demo : BlockSpec :=
  { title := "B2", doc := "", args :=
      [ { kind := .stringArg, name := "q1", grouping := "1", optional := true } ] }

/-- C8, counterexample: constructing a chain from the claim's two blocks B1
and B2 raises `NotImplementedError` at source line 557, before the schema
merge loop runs, so the claimed merged schema for a two-block chain is
never produced. -/
theorem chain_init_two_blocks_rejected :
    chain_init [b1_demo, b2_demo] = Except.error ChainErr.not_implemented ∧
    (chain_init [b1_demo, b2_demo]).toOption = none := ⟨rfl, rfl⟩

/-- C8, amended: the deterministic schema merge holds for the only
constructible case, a single-block chain — data-type selector and
identifier list first, then the block's enable flag with grouping "1" and
its parameters re-tagged with "1." before the original key — while any chain of two or
more blocks fails construction with the not-implemented error before a
schema exists. -/
theorem chain_init_merge_single (b b2 : BlockSpec) (rest : List BlockSpec) :
    chain_init [b] = Except.ok
      { title := b.title, doc := b.doc,
        args := [data_type_arg, ids_arg,
          { kind := ArgKind.boolArg, name := b.title, grouping := "1", optional := true }] ++
          b.args.map (fun a => { a with grouping := "1." ++ a.grouping }) } ∧
    chain_init (b :: b2 :: rest) = Except.error ChainErr.not_implemented := by
  constructor
  · simp [chain_init, merged_block_args, zero_pad]
    exact ⟨rfl, fun a _ => rfl⟩
  · rfl

/-- C3 (code bug): the deadline of `bin_block.process` can never fire,
because line 258 rebinds the name `timeout` to the lambda itself.  At the
failing input — deadline 1 already long past at start time 100 — a process
exiting with status 0 at time 150 is supervised to completion and reported
as success (5 keepalives), and a process that never exits is polled
forever (fuel exhaustion at any fuel), whereas the intended semantics of
the docstring (`bin_process_intended`) raises `timeout_reached`
immediately. -/
theorem bin_process_timeout_never_fires :
    bin_process ⟨some 150, 0⟩ [] (some 1) 10 100 20 = some (BinOutcome.ok, 5) ∧
    bin_process ⟨none, 0⟩ [] (some 1) 10 100 60 = none ∧
    bin_process_intended ⟨some 150, 0⟩ [] (some 1) 10 100 20 =
      some (BinOutcome.timeout_reached, 0) := ⟨rfl, rfl, rfl⟩

/-- C4: while the supervised process runs, the loop of `bin_block.process`
(the same loop as `matlab_block.run_matlab`) emits one `keepAlive()` per
poll interval and never blocks in a single wait: for any run of duration
`D` exceeding `K` poll intervals of length `grain` (and enough fuel for
the process's exit at `t0 + D` to be observed), the supervision returns
and the liveness callback was invoked at least `K` times. -/
theorem keepalive_at_least_once_per_interval (timeout : Option Nat) (args : List String)
    (rc : Int) (t0 D K grain fuel : Nat) (hD : K * grain < D) (hfuel : D ≤ fuel * grain) :
    ∃ out k, bin_process ⟨some (t0 + D), rc⟩ args timeout grain t0 fuel = some (out, k) ∧
      K ≤ k := by
  simp only [bin_process]
  rw [mk_timeout_pred_eq_false]
  have hfin : sp_finished ⟨some (t0 + D), rc⟩ = fun u => decide (t0 + D ≤ u) := rfl
  rw [hfin]
  obtain ⟨t2, k2, hp⟩ := poll_loop_terminates (fun u => decide (t0 + D ≤ u)) (fun _ => false)
    grain (t0 + D) (fun t ht => by simpa using ht) fuel t0 0
    (by have := Nat.le_add_left (t0 + D) 0; omega)
  rw [hp]
  have hk := poll_loop_keepalive_bound (t0 + D) grain fuel t0 0 t2 k2 hp K (by omega)
  cases hcond : (decide (t0 + D ≤ t2) && (rc != 0)) with
  | true => exact ⟨BinOutcome.bin_bad_exit args rc, k2, by simp [hcond], by omega⟩
  | false => exact ⟨BinOutcome.ok, k2, by simp [hcond], by omega⟩

/-- Witness for C4 at the spec's own example: a 25-time-unit run with a
10-unit interval fires the callback at least twice. -/
theorem keepalive_at_least_once_per_interval_witness :
    ∃ out k, bin_process ⟨some 25, 0⟩ [] none 10 0 3 = some (out, k) ∧ 2 ≤ k :=
  keepalive_at_least_once_per_interval none [] 0 0 25 2 10 3 (by decide) (by decide)

/-- C10: a falsy `timeout` argument (None or 0) disables the deadline of
`bin_block.process` entirely: the built predicate is the constant False, a
process that never exits keeps the loop polling at any fuel (it blocks
until the subprocess exits on its own), the call never raises
`timeout_reached`, and a process that does exit is classified purely by
its exit status. -/
theorem falsy_timeout_disables_deadline (timeout : Option Nat)
    (h : timeout = none ∨ timeout = some 0)
    (args : List String) (rc : Int) (grain t0 fuel fuel2 te k : Nat) :
    mk_timeout_pred timeout = (fun _ => false) ∧
    bin_process ⟨none, rc⟩ args timeout grain t0 fuel2 = none ∧
    bin_process ⟨some te, rc⟩ args timeout grain t0 fuel ≠
      some (BinOutcome.timeout_reached, k) ∧
    (te ≤ t0 + fuel * grain →
      ∃ k2, bin_process ⟨some te, rc⟩ args timeout grain t0 fuel =
        some ((if rc == 0 then BinOutcome.ok else BinOutcome.bin_bad_exit args rc), k2)) := by
  have h1 : mk_timeout_pred timeout = (fun _ => false) := by
    rcases h with h | h <;> subst h <;> rfl
  have hfin : sp_finished ⟨some te, rc⟩ = fun u => decide (te ≤ u) := rfl
  have hfin0 : sp_finished ⟨none, rc⟩ = fun _ => false := rfl
  refine ⟨h1, ?_, ?_, ?_⟩
  · simp only [bin_process]
    rw [h1, hfin0, poll_loop_never_exits]
  · intro hEq
    simp only [bin_process] at hEq
    rw [h1, hfin] at hEq
    cases hq : poll_loop (fun u => decide (te ≤ u)) (fun _ => false) grain fuel t0 0 with
    | none => rw [hq] at hEq; exact absurd hEq (by simp)
    | some tk =>
      obtain ⟨t2, k2⟩ := tk
      rw [hq] at hEq
      cases hcond : (decide (te ≤ t2) && (rc != 0)) with
      | true => simp [hcond] at hEq
      | false => simp [hcond] at hEq
  · intro hte
    simp only [bin_process]
    rw [h1, hfin]
    obtain ⟨t2, k2, hp⟩ := poll_loop_terminates (fun u => decide (te ≤ u)) (fun _ => false)
      grain te (fun t ht => by simpa using ht) fuel t0 0 (by omega)
    have hf2 : decide (te ≤ t2) = true :=
      poll_loop_exit_fin (fun u => decide (te ≤ u)) grain fuel t0 0 t2 k2 hp
    rw [hp]
    cases hrc : (rc == 0) with
    | true =>
      refine ⟨k2, ?_⟩
      have hb : (rc != 0) = false := by simp [bne, hrc]
      simp [hf2, hb]
    | false =>
      refine ⟨k2, ?_⟩
      have hb : (rc != 0) = true := by simp [bne, hrc]
      simp [hf2, hb]

/-- Witness for C10 at a concrete falsy timeout (None): constant-false
predicate, indefinite polling for a never-exiting process, no
`timeout_reached`, and exit-status classification for a process exiting at
time 25 within fuel. -/
theorem falsy_timeout_disables_deadline_witness :
    mk_timeout_pred none = (fun _ => false) ∧
    bin_process ⟨none, 0⟩ [] none 10 0 7 = none ∧
    bin_process ⟨some 25, 0⟩ [] none 10 0 5 ≠ some (BinOutcome.timeout_reached, 3) ∧
    ∃ k2, bin_process ⟨some 25, 0⟩ [] none 10 0 5 = some (BinOutcome.ok, k2) := by
  obtain ⟨h1, h2, h3, h4⟩ :=
    falsy_timeout_disables_deadline none (Or.inl rfl) [] 0 10 0 5 7 25 3
  exact ⟨h1, h2, h3, by simpa using h4 (by decide)⟩

set_option maxRecDepth 4000

/-- C5: `protect_exit` produces exactly the rendering of the protective
envelope — sentinel set to 0, the caller's code inside try/catch whose
handler prints the error message and stack and sets the sentinel to 1,
then an unconditional `exit(sentinel)` — and executing that envelope in
the Matlab session semantics always terminates the interpreter by an
`exit` call (never falling back to the interactive prompt): with exit
status 0 when the wrapped code completes, and exit status 1 (after
printing the error message and stack lines) when it raises an internal
error. -/
theorem protect_exit_envelope (code : String) (env : MEnv) (beh : COutcome) :
    protect_exit code = renderM "" (envelopeStmt code) ∧
    ∃ env2, matlabExec beh (envelopeStmt code) env =
        MRes.exited (match beh with | .ok => 0 | .raises _ => 1) env2 ∧
      env2.out = env.out ++ (match beh with
        | .ok => []
        | .raises m => ["error: " ++ m, "stack: " ++ m]) := by
  constructor
  · symm
    simp only [renderM, envelopeStmt, statusVar, errVar, protect_exit, String.append_assoc]
    have hpre : ∀ X : String,
        "" ++ ("omero_scripts_processing_status" ++ (" = " ++ (toString 0 ++ (";\n" ++
          ("" ++ ("try\n" ++ ("\n" ++ X))))))) =
          "omero_scripts_processing_status = 0;\ntry\n\n" ++ X := by
      intro X
      rw [← String.append_assoc, ← String.append_assoc, ← String.append_assoc,
        ← String.append_assoc, ← String.append_assoc, ← String.append_assoc,
        ← String.append_assoc]
      exact congrArg (fun Y => Y ++ X) (by decide)
    rw [hpre]
    exact congrArg
      (fun X => "omero_scripts_processing_status = 0;\ntry\n\n" ++ (code ++ X)) (by decide)
  · cases beh with
    | ok => exact ⟨_, rfl, by simp⟩
    | raises m => exact ⟨_, rfl, by simp⟩

end OSP
